import Mathlib

/-!
TAUJ0 interval-timer driver and boot self-test (RH850)

A shallow embedding of `src/RH850/src/tauj0_regs.h`, `src/RH850/src/tauj0.c`
and `src/RH850/src/main.c`.

* Every `uint32_t` / `unsigned long` value is a `Nat`; each store into a
  32-bit register and each 32-bit arithmetic result is reduced modulo `2^32`
  explicitly (`wrap32`).
* The memory-mapped register block `TAUJ0` is a record of register values.
  A register access is a plain load or store of that record: the driver code
  treats the block as memory, and so does this model.
* Each driver function is a state transformer on the register block.
-/

namespace TAUJ0

/-! ## Machine integers -/

/-- Number of values of a 32-bit unsigned integer, `2^32`. -/
def U32_MOD : Nat := 4294967296

/-- Truncation of an unbounded value to an unsigned 32-bit value. -/
def wrap32 (n : Nat) : Nat := n % U32_MOD

/-! ## `tauj0_regs.h`: register offsets -/

def TAUJ0_BASE_ADDR : Nat := 0xFFE50000

def TAUJ0_CDR0_OFFSET : Nat := 0x0000
def TAUJ0_CNT0_OFFSET : Nat := 0x0000
def TAUJ0_CMOR0_OFFSET : Nat := 0x0080
def TAUJ0_CMUR0_OFFSET : Nat := 0x00C0
def TAUJ0_CSR0_OFFSET : Nat := 0x0040
def TAUJ0_CSC0_OFFSET : Nat := 0x0044
def TAUJ0_TS0_OFFSET : Nat := 0x0014
def TAUJ0_TT0_OFFSET : Nat := 0x0018
def TAUJ0_TO0_OFFSET : Nat := 0x0010
def TAUJ0_TOE0_OFFSET : Nat := 0x001C
def TAUJ0_TOL0_OFFSET : Nat := 0x0020
def TAUJ0_RDE0_OFFSET : Nat := 0x0024
def TAUJ0_RDM0_OFFSET : Nat := 0x0028

/-! ## `tauj0_regs.h`: the register block -/

/-- Values of the twelve named registers of `TAUJ0_Regs_t`, in declaration
order. The `dummy1..dummy4` padding arrays carry no value the driver reads or
writes; they appear in the layout description `TAUJ0_Regs_t_members`. -/
structure TAUJ0_Regs_t where
  CDR0 : Nat
  TO0 : Nat
  TS0 : Nat
  TT0 : Nat
  TOE0 : Nat
  TOL0 : Nat
  RDE0 : Nat
  RDM0 : Nat
  CSR0 : Nat
  CSC0 : Nat
  CMOR0 : Nat
  CMUR0 : Nat
  deriving DecidableEq, Repr

/-- Every register of the block holds a 32-bit value. -/
def TAUJ0_Regs_t.valid (s : TAUJ0_Regs_t) : Prop :=
  s.CDR0 < U32_MOD ∧ s.TO0 < U32_MOD ∧ s.TS0 < U32_MOD ∧ s.TT0 < U32_MOD ∧
  s.TOE0 < U32_MOD ∧ s.TOL0 < U32_MOD ∧ s.RDE0 < U32_MOD ∧ s.RDM0 < U32_MOD ∧
  s.CSR0 < U32_MOD ∧ s.CSC0 < U32_MOD ∧ s.CMOR0 < U32_MOD ∧ s.CMUR0 < U32_MOD

instance (s : TAUJ0_Regs_t) : Decidable s.valid := by
  unfold TAUJ0_Regs_t.valid
  infer_instance

/-! ## `tauj0_regs.h`: bit definitions -/

def TAUJ0_CMOR0_CKS_Pos : Nat := 14
def TAUJ0_CMOR0_CKS_Msk : Nat := wrap32 (0x3 <<< TAUJ0_CMOR0_CKS_Pos)
def TAUJ0_CMOR0_MD0_Pos : Nat := 0
def TAUJ0_CMOR0_MD0_Msk : Nat := wrap32 (0x1 <<< TAUJ0_CMOR0_MD0_Pos)

def TAUJ0_TS0_TS0_Pos : Nat := 0
def TAUJ0_TS0_TS0_Msk : Nat := wrap32 (0x1 <<< TAUJ0_TS0_TS0_Pos)

def TAUJ0_TT0_TT0_Pos : Nat := 0
def TAUJ0_TT0_TT0_Msk : Nat := wrap32 (0x1 <<< TAUJ0_TT0_TT0_Pos)

/-! ## `tauj0.c`: the driver -/

/-- System clock frequency, the default of the `#ifndef SYSTEM_CLOCK_HZ` block. -/
def SYSTEM_CLOCK_HZ : Nat := 80000000

/-- Clock source prescaler. -/
def TAUJ0_PRESCALER : Nat := 1

/-- `TAUJ0_SetInterval`: `counts = interval_us * (SYSTEM_CLOCK_HZ / 1000000UL)`
in 32-bit unsigned arithmetic, then `TAUJ0.CDR0 = counts`. -/
def TAUJ0_SetInterval (interval_us : Nat) (s : TAUJ0_Regs_t) : TAUJ0_Regs_t :=
  let counts := wrap32 (interval_us * wrap32 (SYSTEM_CLOCK_HZ / 1000000))
  { s with CDR0 := counts }

/-- `TAUJ0_Init`: `TAUJ0.TT0 |= TAUJ0_TT0_TT0_Msk`, `TAUJ0.CMOR0 = 0`, then
the call `TAUJ0_SetInterval(interval_us)`. -/
def TAUJ0_Init (interval_us : Nat) (s : TAUJ0_Regs_t) : TAUJ0_Regs_t :=
  let s1 := { s with TT0 := wrap32 (s.TT0 ||| TAUJ0_TT0_TT0_Msk) }
  let s2 := { s1 with CMOR0 := wrap32 0x00000000 }
  TAUJ0_SetInterval interval_us s2

/-- `TAUJ0_Start`: `TAUJ0.TS0 |= TAUJ0_TS0_TS0_Msk`. -/
def TAUJ0_Start (s : TAUJ0_Regs_t) : TAUJ0_Regs_t :=
  { s with TS0 := wrap32 (s.TS0 ||| TAUJ0_TS0_TS0_Msk) }

/-- `TAUJ0_Stop`: `TAUJ0.TT0 |= TAUJ0_TT0_TT0_Msk`. -/
def TAUJ0_Stop (s : TAUJ0_Regs_t) : TAUJ0_Regs_t :=
  { s with TT0 := wrap32 (s.TT0 ||| TAUJ0_TT0_TT0_Msk) }

/-! ## The driver as the specification words it -/

/-- The registers the driver is said to leave alone: `TO0`, `TOE0`, `TOL0`,
`RDE0`, `RDM0`, `CSR0`, `CSC0` and `CMUR0`. -/
def unused_regs (s : TAUJ0_Regs_t) : Nat × Nat × Nat × Nat × Nat × Nat × Nat × Nat :=
  (s.TO0, s.TOE0, s.TOL0, s.RDE0, s.RDM0, s.CSR0, s.CSC0, s.CMUR0)

/-- Initialize as the specification words it: stop the channel, write
`CMOR0 := 0`, then delegate to SetInterval. -/
def Init_spec (interval_us : Nat) (s : TAUJ0_Regs_t) : TAUJ0_Regs_t :=
  TAUJ0_SetInterval interval_us { TAUJ0_Stop s with CMOR0 := 0 }

/-! ## `tauj0_regs.h`: declared layout of `TAUJ0_Regs_t` -/

/-- Members of `TAUJ0_Regs_t`, padding arrays included. -/
inductive Member where
  | CDR0 | dummy1 | TO0 | TS0 | TT0 | TOE0 | TOL0 | RDE0 | RDM0
  | dummy2 | CSR0 | CSC0 | dummy3 | CMOR0 | dummy4 | CMUR0
  deriving DecidableEq, Repr

/-- One member declaration: its name, the size in bytes of its element type
(`uint32_t` is 4, `uint8_t` is 1) and its number of elements (1 for a scalar,
the array length for a padding array). -/
structure MemberDecl where
  name : Member
  elemSize : Nat
  count : Nat
  deriving DecidableEq, Repr

/-- Size in bytes of a declared member. -/
def MemberDecl.size (d : MemberDecl) : Nat := d.elemSize * d.count

/-- The member declarations of `TAUJ0_Regs_t`, in source order, with the array
lengths written as in the source. -/
def TAUJ0_Regs_t_members : List MemberDecl :=
  [ ⟨.CDR0, 4, 1⟩,
    ⟨.dummy1, 1, 0x10 - 0x04⟩,
    ⟨.TO0, 4, 1⟩,
    ⟨.TS0, 4, 1⟩,
    ⟨.TT0, 4, 1⟩,
    ⟨.TOE0, 4, 1⟩,
    ⟨.TOL0, 4, 1⟩,
    ⟨.RDE0, 4, 1⟩,
    ⟨.RDM0, 4, 1⟩,
    ⟨.dummy2, 1, 0x40 - 0x2C⟩,
    ⟨.CSR0, 4, 1⟩,
    ⟨.CSC0, 4, 1⟩,
    ⟨.dummy3, 1, 0x80 - 0x48⟩,
    ⟨.CMOR0, 4, 1⟩,
    ⟨.dummy4, 1, 0xC0 - 0x84⟩,
    ⟨.CMUR0, 4, 1⟩ ]

/-- Byte offset of member `m` in a declaration list: the sum of the sizes of
the members declared before it, starting from `acc`; `none` when `m` is not
declared. -/
def offsetIn (m : Member) : List MemberDecl → Nat → Option Nat
  | [], _ => none
  | d :: ds, acc => if d.name = m then some acc else offsetIn m ds (acc + d.size)

/-- Byte offset of a member of `TAUJ0_Regs_t`. -/
def offsetof (m : Member) : Option Nat := offsetIn m TAUJ0_Regs_t_members 0

/-- Sum of the sizes of all declared members of `TAUJ0_Regs_t`. -/
def sizeof_TAUJ0_Regs_t : Nat := (TAUJ0_Regs_t_members.map MemberDecl.size).sum

/-- Smallest multiple of `a` that is at least `n` (`a` positive). -/
def alignUp (n a : Nat) : Nat := (n + a - 1) / a * a

/-- Byte offset of member `m` as a C compiler lays the members out: every
member is placed at the next multiple of its element size (its alignment). -/
def alignedOffsetIn (m : Member) : List MemberDecl → Nat → Option Nat
  | [], _ => none
  | d :: ds, acc =>
    if d.name = m then some (alignUp acc d.elemSize)
    else alignedOffsetIn m ds (alignUp acc d.elemSize + d.size)

/-! ## `main.c`: boot self-test and main loop -/

/-- Control points of `main`: the two checks, the `while(1);` of each failed
check, and the head of the main loop. -/
inductive Loc where
  | check_bss | halt_bss | check_data | halt_data | main_loop
  deriving DecidableEq, Repr

/-- State of `main`: the control point, the two `int` globals and the local
`counter` (`unsigned int`). -/
structure MainState where
  pc : Loc
  bss_test_var : Int
  data_test_var : Int
  counter : Nat
  deriving DecidableEq, Repr

/-- One step of `main`. A failed check enters its `while(1);`, which steps to
itself for ever. One step at `main_loop` is one pass of the loop body:
`counter++` and the call `delay(10000)`, which changes no state of `main`. -/
def main_step (σ : MainState) : MainState :=
  match σ.pc with
  | .check_bss =>
    if σ.bss_test_var ≠ 0 then { σ with pc := .halt_bss }
    else { σ with pc := .check_data }
  | .halt_bss => σ
  | .check_data =>
    if σ.data_test_var ≠ 0x12345678 then { σ with pc := .halt_data }
    else { σ with pc := .main_loop }
  | .halt_data => σ
  | .main_loop => { σ with counter := wrap32 (σ.counter + 1) }

/-- State after `n` steps of `main`. -/
def main_run : Nat → MainState → MainState
  | 0, σ => σ
  | n + 1, σ => main_run n (main_step σ)

/-- Entry state of `main` for given values of the two globals:
control at the first check, `counter = 0`. -/
def main_entry (bss data : Int) : MainState :=
  { pc := .check_bss, bss_test_var := bss, data_test_var := data, counter := 0 }

/-! ## `tauj0.c`: the two tick formulas of `TAUJ0_SetInterval` -/

/-- The tick count as `TAUJ0_SetInterval` computes it,
`interval_us * (SYSTEM_CLOCK_HZ / 1000000UL)`, in exact arithmetic and for an
arbitrary clock frequency. -/
def ticks_simplified (clock_hz interval_us : Nat) : Nat :=
  interval_us * (clock_hz / 1000000)

/-- The tick count of the comment in `TAUJ0_SetInterval`,
`(interval_us * (SYSTEM_CLOCK_HZ / TAUJ0_PRESCALER)) / 1000000`, in exact
arithmetic and for an arbitrary clock frequency and prescaler. -/
def ticks_full (clock_hz prescaler interval_us : Nat) : Nat :=
  (interval_us * (clock_hz / prescaler)) / 1000000

/-! ## `main.c`: the busy-wait helper `delay` -/

/-- State of the loop of `delay`: the loop variable `i` (`unsigned int`, 32
bits), and two observers of the run: how many times the loop body has run and
whether an `i++` has wrapped round to 0. -/
structure DelayState where
  i : Nat
  body_runs : Nat
  wrapped : Bool
  deriving DecidableEq, Repr

/-- The loop `for (...; i < count; i++) { }` of `delay`. One unit of fuel pays
for one evaluation of the exit test `i < count`; when the test holds the
(empty) body runs and `i++` is done in 32-bit arithmetic, when it fails the
loop is left with the state reached. `none` means the fuel ran out. -/
def delay_loop (count : Nat) : Nat → DelayState → Option DelayState
  | 0, _ => none
  | fuel + 1, σ =>
    if σ.i < count then
      delay_loop count fuel
        { i := wrap32 (σ.i + 1),
          body_runs := σ.body_runs + 1,
          wrapped := σ.wrapped || decide (U32_MOD ≤ σ.i + 1) }
    else some σ

/-- The function `delay(count)`: the loop started at `i = 0`. -/
def delay (fuel count : Nat) : Option DelayState :=
  delay_loop count fuel { i := 0, body_runs := 0, wrapped := false }

/-! ## Theorems: `TAUJ0_SetInterval` -/

/-- The tick factor `SYSTEM_CLOCK_HZ / 1000000UL` is 80. -/
theorem ticks_per_us_eq : wrap32 (SYSTEM_CLOCK_HZ / 1000000) = 80 := by
  decide

/-- The register written by `TAUJ0_SetInterval`, for any input. -/
theorem SetInterval_CDR0 (interval_us : Nat) (s : TAUJ0_Regs_t) :
    (TAUJ0_SetInterval interval_us s).CDR0 = (interval_us * 80) % 4294967296 := by
  simp only [TAUJ0_SetInterval, ticks_per_us_eq]
  rfl

/-- C1: when `interval_us * 80` fits in 32 bits, `CDR0` after
`TAUJ0_SetInterval interval_us` is exactly `interval_us * 80`, from any prior
register state; and `TAUJ0_SetInterval 0` leaves `CDR0 = 0`. -/
theorem C1_SetInterval_exact (s : TAUJ0_Regs_t) (interval_us : Nat)
    (hfit : interval_us * 80 ≤ 0xFFFFFFFF) :
    (TAUJ0_SetInterval interval_us s).CDR0 = interval_us * 80 ∧
      (TAUJ0_SetInterval 0 s).CDR0 = 0 := by
  refine ⟨?_, ?_⟩
  · rw [SetInterval_CDR0]
    exact Nat.mod_eq_of_lt (by omega)
  · rw [SetInterval_CDR0]

/-- C1 at a concrete input: 1000 microseconds from a register block whose
`CDR0` holds `0xDEADBEEF` programs 80000 ticks. -/
theorem C1_SetInterval_exact_witness :
    1000 * 80 ≤ 0xFFFFFFFF ∧
      (TAUJ0_SetInterval 1000
          ⟨0xDEADBEEF, 1, 2, 3, 4, 5, 6, 7, 8, 9, 10, 11⟩).CDR0 = 1000 * 80 ∧
      (TAUJ0_SetInterval 0
          ⟨0xDEADBEEF, 1, 2, 3, 4, 5, 6, 7, 8, 9, 10, 11⟩).CDR0 = 0 :=
  ⟨by decide, C1_SetInterval_exact _ 1000 (by decide)⟩

/-- C2: for every unsigned 32-bit `interval_us` and every prior register
state, `CDR0` after `TAUJ0_SetInterval interval_us` is
`(interval_us * 80) mod 2^32`: the product wraps, the call is never rejected
and the value never saturates. -/
theorem C2_SetInterval_wraps (s : TAUJ0_Regs_t) (interval_us : Nat)
    (h32 : interval_us < 2 ^ 32) :
    (TAUJ0_SetInterval interval_us s).CDR0 = (interval_us * 80) % 2 ^ 32 := by
  have _ := h32
  rw [SetInterval_CDR0]
  norm_num

/-- C2 at the largest input: `0xFFFFFFFF * 80` wraps to `0xFFFFFFB0`. -/
theorem C2_SetInterval_wraps_witness :
    0xFFFFFFFF < 2 ^ 32 ∧
      (TAUJ0_SetInterval 0xFFFFFFFF ⟨0, 0, 0, 0, 0, 0, 0, 0, 0, 0, 0, 0⟩).CDR0
        = (0xFFFFFFFF * 80) % 2 ^ 32 ∧
      (0xFFFFFFFF * 80) % 2 ^ 32 = 0xFFFFFFB0 :=
  ⟨by decide, C2_SetInterval_wraps _ 0xFFFFFFFF (by decide), by decide⟩

/-- C3 as stated fails: from the all-zero register block,
`TAUJ0_SetInterval 53687092` does not store `0x50` in `CDR0`, and the product
`53687092 * 80` is not `0x100000050`. -/
theorem C3_SetInterval_53687092_not_0x50 :
    (TAUJ0_SetInterval 53687092 ⟨0, 0, 0, 0, 0, 0, 0, 0, 0, 0, 0, 0⟩).CDR0 ≠ 0x50 ∧
      53687092 * 80 ≠ 0x100000050 := by
  decide

/-- C3, amended: `TAUJ0_SetInterval 53687092` stores `0x40` in `CDR0`, from
any prior register state: the product `53687092 * 80` is `0x100000040`, which
exceeds 32 bits and wraps modulo `2^32` to `0x40`. -/
theorem C3_SetInterval_53687092 (s : TAUJ0_Regs_t) :
    53687092 * 80 = 0x100000040 ∧ 0xFFFFFFFF < 53687092 * 80 ∧
      0x100000040 % 2 ^ 32 = 0x40 ∧
      (TAUJ0_SetInterval 53687092 s).CDR0 = 0x40 := by
  refine ⟨by decide, by decide, by decide, ?_⟩
  rw [SetInterval_CDR0]

/-! ## Theorems: start and stop bits -/

theorem TT0_Msk_eq : TAUJ0_TT0_TT0_Msk = 1 := by decide

theorem TS0_Msk_eq : TAUJ0_TS0_TS0_Msk = 1 := by decide

/-- Setting bit 0 of a 32-bit value gives a 32-bit value. -/
theorem wrap32_or_one (x : Nat) (hx : x < U32_MOD) : wrap32 (x ||| 1) = x ||| 1 := by
  have h1 : x < 2 ^ 32 := hx
  have h2 : x ||| 1 < 2 ^ 32 := Nat.or_lt_two_pow h1 (by decide)
  exact Nat.mod_eq_of_lt h2

/-- Bits of `wrap32 (x ||| 1)`. -/
theorem testBit_wrap32_or_one (x i : Nat) :
    (wrap32 (x ||| 1)).testBit i = (decide (i < 32) && (x.testBit i || decide (i = 0))) := by
  have h : wrap32 (x ||| 1) = (x ||| 1) % 2 ^ 32 := rfl
  rw [h, Nat.testBit_mod_two_pow, Nat.testBit_or]
  congr 2
  cases i with
  | zero => simp
  | succ j => simp [Nat.testBit_succ]

/-- Setting bit 0 twice is the same as setting it once. -/
theorem wrap32_or_one_idem (x : Nat) :
    wrap32 (wrap32 (x ||| 1) ||| 1) = wrap32 (x ||| 1) := by
  apply Nat.eq_of_testBit_eq
  intro i
  rw [testBit_wrap32_or_one, testBit_wrap32_or_one]
  cases decide (i < 32) <;> simp

/-- A value with bit 0 set keeps the mask `1` under AND. -/
theorem and_one_of_testBit_zero (y : Nat) (h : y.testBit 0 = true) : y &&& 1 = 1 := by
  rw [Nat.and_one_is_mod]
  rw [Nat.testBit_zero] at h
  simpa using h

/-- A truncated value is a 32-bit value. -/
theorem wrap32_lt (n : Nat) : wrap32 n < U32_MOD :=
  Nat.mod_lt n (by decide)

/-- Every driver operation takes a block of 32-bit registers to a block of
32-bit registers. -/
theorem driver_preserves_valid (s : TAUJ0_Regs_t) (x : Nat) (hs : s.valid) :
    (TAUJ0_Init x s).valid ∧ (TAUJ0_Start s).valid ∧ (TAUJ0_Stop s).valid ∧
      (TAUJ0_SetInterval x s).valid := by
  obtain ⟨h1, h2, h3, h4, h5, h6, h7, h8, h9, h10, h11, h12⟩ := hs
  refine ⟨?_, ?_, ?_, ?_⟩
  · exact ⟨wrap32_lt _, h2, h3, wrap32_lt _, h5, h6, h7, h8, h9, h10, wrap32_lt _, h12⟩
  · exact ⟨h1, h2, wrap32_lt _, h4, h5, h6, h7, h8, h9, h10, h11, h12⟩
  · exact ⟨h1, h2, h3, wrap32_lt _, h5, h6, h7, h8, h9, h10, h11, h12⟩
  · exact ⟨wrap32_lt _, h2, h3, h4, h5, h6, h7, h8, h9, h10, h11, h12⟩

/-- C4: for every prior register state and every interval `x`, after
`TAUJ0_Init x` the register `CMOR0` is 0 and bit 0 (the stop bit, mask
`TAUJ0_TT0_TT0_Msk`) of `TT0` is set. -/
theorem C4_Init_mode_and_stop_bit (s : TAUJ0_Regs_t) (x : Nat) :
    (TAUJ0_Init x s).CMOR0 = 0 ∧
      (TAUJ0_Init x s).TT0.testBit TAUJ0_TT0_TT0_Pos = true ∧
      (TAUJ0_Init x s).TT0 &&& TAUJ0_TT0_TT0_Msk = TAUJ0_TT0_TT0_Msk := by
  have hb : (TAUJ0_Init x s).TT0.testBit 0 = true := by
    simp only [TAUJ0_Init, TAUJ0_SetInterval, TT0_Msk_eq]
    rw [testBit_wrap32_or_one]
    simp
  refine ⟨rfl, hb, ?_⟩
  rw [TT0_Msk_eq]
  exact and_one_of_testBit_zero _ hb

/-- C5: for every prior register state (all registers 32-bit), after
`TAUJ0_Start` the register `TS0` is `TS0_before OR 1`: bit 0 is set and every
other bit of `TS0` has the value it had before the call. -/
theorem C5_Start_sets_only_start_bit (s : TAUJ0_Regs_t) (hs : s.valid) :
    (TAUJ0_Start s).TS0 = s.TS0 ||| 1 ∧
      (TAUJ0_Start s).TS0.testBit 0 = true ∧
      ∀ i : Nat, i ≠ 0 → (TAUJ0_Start s).TS0.testBit i = s.TS0.testBit i := by
  have hTS : s.TS0 < U32_MOD := hs.2.2.1
  have heq : (TAUJ0_Start s).TS0 = s.TS0 ||| 1 := by
    simp only [TAUJ0_Start, TS0_Msk_eq]
    exact wrap32_or_one _ hTS
  refine ⟨heq, ?_, ?_⟩
  · rw [heq, Nat.testBit_or]
    simp
  · intro i hi
    rw [heq, Nat.testBit_or]
    cases i with
    | zero => exact absurd rfl hi
    | succ j => simp [Nat.testBit_succ]

/-- C5 at a concrete register block: `TS0 = 0xFFFFFFF0` becomes `0xFFFFFFF1`. -/
theorem C5_Start_sets_only_start_bit_witness :
    TAUJ0_Regs_t.valid ⟨7, 0, 0xFFFFFFF0, 0, 0, 0, 0, 0, 0, 0, 0x4001, 0⟩ ∧
      (TAUJ0_Start ⟨7, 0, 0xFFFFFFF0, 0, 0, 0, 0, 0, 0, 0, 0x4001, 0⟩).TS0
        = 0xFFFFFFF0 ||| 1 ∧
      (0xFFFFFFF0 ||| 1) = 0xFFFFFFF1 :=
  ⟨by decide,
    (C5_Start_sets_only_start_bit
      ⟨7, 0, 0xFFFFFFF0, 0, 0, 0, 0, 0, 0, 0, 0x4001, 0⟩ (by decide)).1,
    by decide⟩

/-- C6: `TAUJ0_Stop` is idempotent: for every prior register state the stop
bit of `TT0` is set after one call and after a second call, and the whole
register state after two calls equals the state after one. -/
theorem C6_Stop_idempotent (s : TAUJ0_Regs_t) :
    (TAUJ0_Stop s).TT0.testBit TAUJ0_TT0_TT0_Pos = true ∧
      (TAUJ0_Stop (TAUJ0_Stop s)).TT0.testBit TAUJ0_TT0_TT0_Pos = true ∧
      TAUJ0_Stop (TAUJ0_Stop s) = TAUJ0_Stop s := by
  have hidem : TAUJ0_Stop (TAUJ0_Stop s) = TAUJ0_Stop s := by
    simp only [TAUJ0_Stop, TT0_Msk_eq, wrap32_or_one_idem]
  have hb : (TAUJ0_Stop s).TT0.testBit 0 = true := by
    simp only [TAUJ0_Stop, TT0_Msk_eq]
    rw [testBit_wrap32_or_one]
    simp
  refine ⟨hb, ?_, hidem⟩
  rw [hidem]
  exact hb

/-! ## Theorems: boot self-test -/

/-- A state that steps to itself stays put. -/
theorem main_run_fixed (σ : MainState) (h : main_step σ = σ) (n : Nat) :
    main_run n σ = σ := by
  induction n with
  | zero => rfl
  | succ k ih => rw [main_run, h, ih]

/-- Once at the head of the main loop, control stays there. -/
theorem main_run_main_loop (n : Nat) (σ : MainState) (h : σ.pc = .main_loop) :
    (main_run n σ).pc = .main_loop := by
  induction n generalizing σ with
  | zero => exact h
  | succ k ih =>
    rw [main_run]
    apply ih
    simp [main_step, h]

/-- A failed first check: control is in the first `while(1);` from step 1 on. -/
theorem main_run_bss_fail (bss data : Int) (hb : bss ≠ 0) (n : Nat) :
    (main_run (n + 1) (main_entry bss data)).pc = .halt_bss := by
  have h1 : main_step (main_entry bss data) =
      { main_entry bss data with pc := .halt_bss } := by
    simp [main_step, main_entry, hb]
  rw [main_run, h1, main_run_fixed _ rfl]

/-- A passed first check and a failed second check: control is in the second
`while(1);` from step 2 on. -/
theorem main_run_data_fail (data : Int) (hd : data ≠ 0x12345678) (n : Nat) :
    (main_run (n + 2) (main_entry 0 data)).pc = .halt_data := by
  have h1 : main_step (main_entry 0 data) =
      { main_entry 0 data with pc := .check_data } := by
    simp [main_step, main_entry]
  have h2 : main_step { main_entry 0 data with pc := .check_data } =
      { main_entry 0 data with pc := .halt_data } := by
    simp [main_step, main_entry, hd]
  rw [main_run, h1, main_run, h2, main_run_fixed _ rfl]

/-- Both checks passed: control is in the main loop from step 2 on. -/
theorem main_run_pass (n : Nat) :
    (main_run (n + 2) (main_entry 0 0x12345678)).pc = .main_loop := by
  rw [main_run, main_run]
  apply main_run_main_loop
  simp [main_step, main_entry]

/-- C7: the boot self-test lets control reach the main loop if and only if
`bss_test_var = 0` and `data_test_var = 0x12345678`. For every other pair of
values control never reaches the main loop and sits in one of the two
`while(1);` loops from the second step on; when `bss_test_var ≠ 0` it sits in
the first one from the first step on, whatever `data_test_var` holds. -/
theorem C7_boot_self_test (bss data : Int) :
    ((∃ n, (main_run n (main_entry bss data)).pc = .main_loop) ↔
        (bss = 0 ∧ data = 0x12345678)) ∧
      (¬ (bss = 0 ∧ data = 0x12345678) →
        (∀ n, (main_run n (main_entry bss data)).pc ≠ .main_loop) ∧
        ∀ n, 2 ≤ n → ((main_run n (main_entry bss data)).pc = .halt_bss ∨
          (main_run n (main_entry bss data)).pc = .halt_data)) ∧
      (bss ≠ 0 → ∀ n, 1 ≤ n → (main_run n (main_entry bss data)).pc = .halt_bss) := by
  have hfail : ¬ (bss = 0 ∧ data = 0x12345678) →
      (∀ n, (main_run n (main_entry bss data)).pc ≠ .main_loop) ∧
      ∀ n, 2 ≤ n → ((main_run n (main_entry bss data)).pc = .halt_bss ∨
        (main_run n (main_entry bss data)).pc = .halt_data) := by
    intro hne
    by_cases hb : bss = 0
    · subst hb
      have hd : data ≠ 0x12345678 := fun h => hne ⟨rfl, h⟩
      refine ⟨?_, ?_⟩
      · intro n
        match n with
        | 0 => simp [main_run, main_entry]
        | 1 => simp [main_run, main_step, main_entry]
        | k + 2 => rw [main_run_data_fail data hd k]; simp
      · intro n hn
        obtain ⟨k, rfl⟩ : ∃ k, n = k + 2 := ⟨n - 2, by omega⟩
        exact Or.inr (main_run_data_fail data hd k)
    · refine ⟨?_, ?_⟩
      · intro n
        match n with
        | 0 => simp [main_run, main_entry]
        | k + 1 => rw [main_run_bss_fail bss data hb k]; simp
      · intro n hn
        obtain ⟨k, rfl⟩ : ∃ k, n = k + 1 := ⟨n - 1, by omega⟩
        exact Or.inl (main_run_bss_fail bss data hb k)
  refine ⟨⟨?_, ?_⟩, hfail, ?_⟩
  · rintro ⟨n, hn⟩
    by_contra hne
    exact (hfail hne).1 n hn
  · rintro ⟨rfl, rfl⟩
    exact ⟨2, main_run_pass 0⟩
  · intro hb n hn
    obtain ⟨k, rfl⟩ : ∃ k, n = k + 1 := ⟨n - 1, by omega⟩
    exact main_run_bss_fail bss data hb k

/-- C7 at concrete inputs: with `bss_test_var = 1` and the right
`data_test_var`, control is in the first `while(1);` after 1 and after 100
steps and is not in the main loop after 5 steps. -/
theorem C7_boot_self_test_witness :
    (1 : Int) ≠ 0 ∧ ¬ ((1 : Int) = 0 ∧ (0x12345678 : Int) = 0x12345678) ∧
      (main_run 1 (main_entry 1 0x12345678)).pc = .halt_bss ∧
      (main_run 100 (main_entry 1 0x12345678)).pc = .halt_bss ∧
      (main_run 5 (main_entry 1 0x12345678)).pc ≠ .main_loop :=
  ⟨by decide, by decide,
    (C7_boot_self_test 1 0x12345678).2.2 (by decide) 1 (by decide),
    (C7_boot_self_test 1 0x12345678).2.2 (by decide) 100 (by decide),
    ((C7_boot_self_test 1 0x12345678).2.1 (by decide)).1 5⟩

/-! ## Theorems: register layout -/

/-- The layout a C compiler computes, with every member aligned to its element
size, places each named register where the plain sum of sizes does: the
declared padding arrays leave nothing for the compiler to insert. -/
theorem alignedOffset_eq_offset :
    ∀ m ∈ [Member.CDR0, .TO0, .TS0, .TT0, .TOE0, .TOL0, .RDE0, .RDM0,
        .CSR0, .CSC0, .CMOR0, .CMUR0],
      alignedOffsetIn m TAUJ0_Regs_t_members 0 = offsetof m := by
  decide

/-- C8: the byte offset of every named register of `TAUJ0_Regs_t`, computed as
the sum of the sizes of the members declared before it, equals the documented
hardware offset and the corresponding `TAUJ0_*_OFFSET` constant, and the sizes
of all members sum to `0xC4`. -/
theorem C8_register_offsets :
    (offsetof .CDR0 = some 0x00 ∧ offsetof .CDR0 = some TAUJ0_CDR0_OFFSET) ∧
      (offsetof .TO0 = some 0x10 ∧ offsetof .TO0 = some TAUJ0_TO0_OFFSET) ∧
      (offsetof .TS0 = some 0x14 ∧ offsetof .TS0 = some TAUJ0_TS0_OFFSET) ∧
      (offsetof .TT0 = some 0x18 ∧ offsetof .TT0 = some TAUJ0_TT0_OFFSET) ∧
      (offsetof .TOE0 = some 0x1C ∧ offsetof .TOE0 = some TAUJ0_TOE0_OFFSET) ∧
      (offsetof .TOL0 = some 0x20 ∧ offsetof .TOL0 = some TAUJ0_TOL0_OFFSET) ∧
      (offsetof .RDE0 = some 0x24 ∧ offsetof .RDE0 = some TAUJ0_RDE0_OFFSET) ∧
      (offsetof .RDM0 = some 0x28 ∧ offsetof .RDM0 = some TAUJ0_RDM0_OFFSET) ∧
      (offsetof .CSR0 = some 0x40 ∧ offsetof .CSR0 = some TAUJ0_CSR0_OFFSET) ∧
      (offsetof .CSC0 = some 0x44 ∧ offsetof .CSC0 = some TAUJ0_CSC0_OFFSET) ∧
      (offsetof .CMOR0 = some 0x80 ∧ offsetof .CMOR0 = some TAUJ0_CMOR0_OFFSET) ∧
      (offsetof .CMUR0 = some 0xC0 ∧ offsetof .CMUR0 = some TAUJ0_CMUR0_OFFSET) ∧
      sizeof_TAUJ0_Regs_t = 0xC4 := by
  decide

/-! ## Theorems: what `TAUJ0_Init` does and what no operation touches -/

/-- C9: `TAUJ0_Init` does not start the channel and delegates the interval to
`TAUJ0_SetInterval`: for every prior register state `s` and every interval
`x`, `TAUJ0_Init x s` is the state reached by Stop, then `CMOR0 := 0`, then
SetInterval; `TS0` is unchanged and `CDR0` is the one `TAUJ0_SetInterval x`
stores. -/
theorem C9_Init_refines_spec (s : TAUJ0_Regs_t) (x : Nat) :
    TAUJ0_Init x s = Init_spec x s ∧
      TAUJ0_Init x s = TAUJ0_SetInterval x { TAUJ0_Stop s with CMOR0 := 0 } ∧
      (TAUJ0_Init x s).TS0 = s.TS0 ∧
      (TAUJ0_Init x s).CDR0 = (TAUJ0_SetInterval x s).CDR0 :=
  ⟨rfl, rfl, rfl, rfl⟩

/-- C10: no driver operation changes `TO0`, `TOE0`, `TOL0`, `RDE0`, `RDM0`,
`CSR0`, `CSC0` or `CMUR0`; moreover `TAUJ0_Start` changes no register but
`TS0`, `TAUJ0_Stop` none but `TT0`, `TAUJ0_SetInterval` none but `CDR0`, and
`TAUJ0_Init` none but `TT0`, `CMOR0` and `CDR0`. -/
theorem C10_frame (s : TAUJ0_Regs_t) (x : Nat) :
    (unused_regs (TAUJ0_Init x s) = unused_regs s ∧
        unused_regs (TAUJ0_Start s) = unused_regs s ∧
        unused_regs (TAUJ0_Stop s) = unused_regs s ∧
        unused_regs (TAUJ0_SetInterval x s) = unused_regs s) ∧
      TAUJ0_Start s = { s with TS0 := (TAUJ0_Start s).TS0 } ∧
      TAUJ0_Stop s = { s with TT0 := (TAUJ0_Stop s).TT0 } ∧
      TAUJ0_SetInterval x s = { s with CDR0 := (TAUJ0_SetInterval x s).CDR0 } ∧
      TAUJ0_Init x s = { s with TT0 := (TAUJ0_Init x s).TT0,
                                CMOR0 := (TAUJ0_Init x s).CMOR0,
                                CDR0 := (TAUJ0_Init x s).CDR0 } :=
  ⟨⟨rfl, rfl, rfl, rfl⟩, rfl, rfl, rfl, rfl⟩

/-! ## Theorems: bit-field masks -/

/-- The bits of `0xC000` are bits 14 and 15. -/
theorem testBit_0xC000 (i : Nat) : (0xC000 : Nat).testBit i = decide (i = 14 ∨ i = 15) := by
  by_cases h : i < 16
  · interval_cases i <;> decide
  · have hlt : (0xC000 : Nat) < 2 ^ i :=
      lt_of_lt_of_le (by decide : (0xC000 : Nat) < 2 ^ 16)
        (Nat.pow_le_pow_right (by decide) (by omega))
    rw [Nat.testBit_lt_two_pow hlt]
    have h14 : i ≠ 14 := by omega
    have h15 : i ≠ 15 := by omega
    simp [h14, h15]

/-- The bits of `1`: bit 0 only. -/
theorem testBit_0x1 (i : Nat) : (1 : Nat).testBit i = decide (i = 0) := by
  cases i with
  | zero => rfl
  | succ j => simp [Nat.testBit_succ]

/-- C11: the bit-field masks match the documented positions:
`TAUJ0_CMOR0_CKS_Msk` is `0xC000`, exactly bits 14 and 15;
`TAUJ0_CMOR0_MD0_Msk`, `TAUJ0_TS0_TS0_Msk` and `TAUJ0_TT0_TT0_Msk` are `0x1`,
exactly bit 0. And `TAUJ0_Init` selects clock source 0 and interval-timer
mode: for every prior state and interval `x`, after `TAUJ0_Init x` the `CKS`
field `(CMOR0 AND CKS_Msk) >> 14` is 0 and the `MD0` field
`CMOR0 AND MD0_Msk` is 0. -/
theorem C11_masks_and_mode (s : TAUJ0_Regs_t) (x : Nat) :
    (TAUJ0_CMOR0_CKS_Msk = 0xC000 ∧
        ∀ i : Nat, TAUJ0_CMOR0_CKS_Msk.testBit i = decide (i = 14 ∨ i = 15)) ∧
      (TAUJ0_CMOR0_MD0_Msk = 0x1 ∧ TAUJ0_TS0_TS0_Msk = 0x1 ∧ TAUJ0_TT0_TT0_Msk = 0x1 ∧
        ∀ i : Nat, TAUJ0_CMOR0_MD0_Msk.testBit i = decide (i = 0) ∧
          TAUJ0_TS0_TS0_Msk.testBit i = decide (i = 0) ∧
          TAUJ0_TT0_TT0_Msk.testBit i = decide (i = 0)) ∧
      ((TAUJ0_Init x s).CMOR0 &&& TAUJ0_CMOR0_CKS_Msk) >>> TAUJ0_CMOR0_CKS_Pos = 0 ∧
      (TAUJ0_Init x s).CMOR0 &&& TAUJ0_CMOR0_MD0_Msk = 0 := by
  have hcks : TAUJ0_CMOR0_CKS_Msk = 0xC000 := by decide
  have hmd0 : TAUJ0_CMOR0_MD0_Msk = 0x1 := by decide
  have hts0 : TAUJ0_TS0_TS0_Msk = 0x1 := by decide
  have htt0 : TAUJ0_TT0_TT0_Msk = 0x1 := by decide
  have hmode : (TAUJ0_Init x s).CMOR0 = 0 := rfl
  refine ⟨⟨hcks, ?_⟩, ⟨hmd0, hts0, htt0, ?_⟩, ?_, ?_⟩
  · intro i
    rw [hcks]
    exact testBit_0xC000 i
  · intro i
    rw [hmd0, hts0, htt0]
    exact ⟨testBit_0x1 i, testBit_0x1 i, testBit_0x1 i⟩
  · rw [hmode]
    simp
  · rw [hmode]
    simp

/-! ## Theorems: the tick formulas -/

/-- The count `TAUJ0_SetInterval` stores is the simplified formula at the
configured clock, truncated to 32 bits. -/
theorem SetInterval_CDR0_ticks (interval_us : Nat) (s : TAUJ0_Regs_t) :
    (TAUJ0_SetInterval interval_us s).CDR0 =
      wrap32 (ticks_simplified SYSTEM_CLOCK_HZ interval_us) := by
  rw [SetInterval_CDR0]
  rfl

/-- C12: in exact integer arithmetic the simplified tick formula of
`TAUJ0_SetInterval` agrees with the full formula of its comment, with the
prescaler 1, for every `interval_us` and every `clock_hz` that is a multiple
of 1000000; for any `clock_hz` the simplified value is at most the full one. -/
theorem C12_tick_formulas_agree (interval_us clock_hz : Nat) :
    (clock_hz % 1000000 = 0 →
        ticks_simplified clock_hz interval_us =
          ticks_full clock_hz TAUJ0_PRESCALER interval_us) ∧
      ticks_simplified clock_hz interval_us ≤
        ticks_full clock_hz TAUJ0_PRESCALER interval_us := by
  have hp : clock_hz / TAUJ0_PRESCALER = clock_hz := Nat.div_one clock_hz
  refine ⟨?_, ?_⟩
  · intro hmul
    obtain ⟨k, rfl⟩ := Nat.dvd_of_mod_eq_zero hmul
    simp only [ticks_simplified, ticks_full]
    rw [hp, Nat.mul_div_cancel_left k (by decide : 0 < 1000000),
      Nat.mul_left_comm, Nat.mul_div_cancel_left _ (by decide : 0 < 1000000)]
  · simp only [ticks_simplified, ticks_full]
    rw [hp]
    exact Nat.mul_div_le_mul_div_assoc interval_us clock_hz 1000000

/-- C12 at the configured clock: 80 MHz is a multiple of 1 MHz, and for
1000 microseconds both formulas give 80000 ticks. -/
theorem C12_tick_formulas_agree_witness :
    SYSTEM_CLOCK_HZ % 1000000 = 0 ∧
      ticks_simplified SYSTEM_CLOCK_HZ 1000 =
        ticks_full SYSTEM_CLOCK_HZ TAUJ0_PRESCALER 1000 ∧
      ticks_simplified SYSTEM_CLOCK_HZ 1000 = 80000 :=
  ⟨by decide, (C12_tick_formulas_agree 1000 SYSTEM_CLOCK_HZ).1 (by decide), by decide⟩

/-! ## Theorems: the exact range of `TAUJ0_SetInterval` -/

/-- C13: the exact range of `TAUJ0_SetInterval` ends at 53687091. For every
unsigned 32-bit `interval_us`, `interval_us * 80 ≤ 0xFFFFFFFF` holds exactly
when `interval_us ≤ 53687091`, and then `CDR0` is the unwrapped product;
53687092 is the smallest interval whose stored `CDR0` differs from
`interval_us * 80`. -/
theorem C13_exact_range (s : TAUJ0_Regs_t) (interval_us : Nat)
    (h32 : interval_us < 2 ^ 32) :
    (interval_us * 80 ≤ 0xFFFFFFFF ↔ interval_us ≤ 53687091) ∧
      (interval_us ≤ 53687091 →
        (TAUJ0_SetInterval interval_us s).CDR0 = interval_us * 80) ∧
      (TAUJ0_SetInterval 53687092 s).CDR0 ≠ 53687092 * 80 ∧
      ((TAUJ0_SetInterval interval_us s).CDR0 ≠ interval_us * 80 →
        53687092 ≤ interval_us) := by
  have _ := h32
  have hexact : interval_us ≤ 53687091 →
      (TAUJ0_SetInterval interval_us s).CDR0 = interval_us * 80 := by
    intro hle
    rw [SetInterval_CDR0]
    exact Nat.mod_eq_of_lt (by omega)
  refine ⟨by omega, hexact, ?_, ?_⟩
  · rw [SetInterval_CDR0]
    decide
  · intro hne
    by_contra hlt
    exact hne (hexact (by omega))

/-- C13 at the last exact interval: 53687091 programs `0xFFFFFFF0`. -/
theorem C13_exact_range_witness :
    53687091 < 2 ^ 32 ∧ 53687091 ≤ 53687091 ∧
      (TAUJ0_SetInterval 53687091 ⟨0, 0, 0, 0, 0, 0, 0, 0, 0, 0, 0, 0⟩).CDR0
        = 53687091 * 80 ∧
      53687091 * 80 = 0xFFFFFFF0 :=
  ⟨by decide, by decide,
    (C13_exact_range ⟨0, 0, 0, 0, 0, 0, 0, 0, 0, 0, 0, 0⟩ 53687091 (by decide)).2.1
      (by decide),
    by decide⟩

/-- C14: on intervals that do not overflow, `TAUJ0_SetInterval` is strictly
monotone: for all `a < b` with `b * 80 ≤ 0xFFFFFFFF`, the `CDR0` stored for
`a` is strictly less than the `CDR0` stored for `b`, from any prior register
states; in particular the two stored values differ. -/
theorem C14_strictly_monotone (s s' : TAUJ0_Regs_t) (a b : Nat) (hab : a < b)
    (hfit : b * 80 ≤ 0xFFFFFFFF) :
    (TAUJ0_SetInterval a s).CDR0 < (TAUJ0_SetInterval b s').CDR0 ∧
      (TAUJ0_SetInterval a s).CDR0 ≠ (TAUJ0_SetInterval b s').CDR0 := by
  have hlt : (TAUJ0_SetInterval a s).CDR0 < (TAUJ0_SetInterval b s').CDR0 := by
    have ha : a * 80 < 4294967296 := by omega
    have hb : b * 80 < 4294967296 := by omega
    rw [SetInterval_CDR0, SetInterval_CDR0, Nat.mod_eq_of_lt ha, Nat.mod_eq_of_lt hb]
    omega
  exact ⟨hlt, Nat.ne_of_lt hlt⟩

/-- C14 at the top of the exact range: 53687090 and 53687091. -/
theorem C14_strictly_monotone_witness :
    53687090 < 53687091 ∧ 53687091 * 80 ≤ 0xFFFFFFFF ∧
      (TAUJ0_SetInterval 53687090 ⟨0, 0, 0, 0, 0, 0, 0, 0, 0, 0, 0, 0⟩).CDR0 <
        (TAUJ0_SetInterval 53687091 ⟨9, 0, 0, 0, 0, 0, 0, 0, 0, 0, 0, 0⟩).CDR0 :=
  ⟨by decide, by decide,
    (C14_strictly_monotone ⟨0, 0, 0, 0, 0, 0, 0, 0, 0, 0, 0, 0⟩
      ⟨9, 0, 0, 0, 0, 0, 0, 0, 0, 0, 0, 0⟩ 53687090 53687091 (by decide) (by decide)).1⟩

/-! ## Theorems: wrapped counts and repeated configuration -/

/-- C15: a non-zero interval can program a zero tick count. For every
`interval_us` the `CDR0` stored by `TAUJ0_SetInterval` is a multiple of 16,
and the non-zero 32-bit interval `268435456 = 2^28` stores `CDR0 = 0`, the
value `TAUJ0_SetInterval 0` stores. -/
theorem C15_zero_count_from_nonzero (s : TAUJ0_Regs_t) (interval_us : Nat) :
    (TAUJ0_SetInterval interval_us s).CDR0 % 16 = 0 ∧
      (268435456 ≠ 0 ∧ 268435456 < 2 ^ 32 ∧ 268435456 = 2 ^ 28) ∧
      (TAUJ0_SetInterval 268435456 s).CDR0 = 0 ∧
      (TAUJ0_SetInterval 268435456 s).CDR0 = (TAUJ0_SetInterval 0 s).CDR0 ∧
      ∃ x : Nat, x ≠ 0 ∧ x < 2 ^ 32 ∧ (TAUJ0_SetInterval x s).CDR0 = 0 := by
  have h28 : (TAUJ0_SetInterval 268435456 s).CDR0 = 0 := by
    rw [SetInterval_CDR0]
  have h0 : (TAUJ0_SetInterval 0 s).CDR0 = 0 := by
    rw [SetInterval_CDR0]
  refine ⟨?_, ⟨by decide, by decide, by decide⟩, h28, ?_, ⟨268435456, by decide, by decide, h28⟩⟩
  · rw [SetInterval_CDR0]
    omega
  · rw [h28, h0]

/-- C16: the last interval wins: for every prior register state and all
intervals `a` and `b`, `TAUJ0_SetInterval a` followed by `TAUJ0_SetInterval b`
yields the register state of `TAUJ0_SetInterval b` alone, and `TAUJ0_Init a`
followed by `TAUJ0_Init b` yields the register state of `TAUJ0_Init b` alone. -/
theorem C16_last_interval_wins (s : TAUJ0_Regs_t) (a b : Nat) :
    TAUJ0_SetInterval b (TAUJ0_SetInterval a s) = TAUJ0_SetInterval b s ∧
      TAUJ0_Init b (TAUJ0_Init a s) = TAUJ0_Init b s := by
  refine ⟨rfl, ?_⟩
  simp only [TAUJ0_Init, TAUJ0_SetInterval, TT0_Msk_eq, wrap32_or_one_idem]

/-- Bits above bit 0 are untouched by OR with 1. -/
theorem testBit_or_one_of_ne_zero (y i : Nat) (hi : i ≠ 0) :
    (y ||| 1).testBit i = y.testBit i := by
  rw [Nat.testBit_or, testBit_0x1]
  simp [hi]

/-- C17: for every prior register state (all registers 32-bit), `TT0` after
`TAUJ0_Stop` and after `TAUJ0_Init x` is `TT0_before OR 1`, so every bit of
`TT0` but bit 0 is unchanged; and `TAUJ0_Start` followed by `TAUJ0_Stop`
yields the same register state as `TAUJ0_Stop` followed by `TAUJ0_Start`. -/
theorem C17_TT0_bits_and_commute (s : TAUJ0_Regs_t) (x : Nat) (hs : s.valid) :
    (TAUJ0_Stop s).TT0 = s.TT0 ||| 1 ∧
      (TAUJ0_Init x s).TT0 = s.TT0 ||| 1 ∧
      (∀ i : Nat, i ≠ 0 →
        (TAUJ0_Stop s).TT0.testBit i = s.TT0.testBit i ∧
        (TAUJ0_Init x s).TT0.testBit i = s.TT0.testBit i) ∧
      TAUJ0_Stop (TAUJ0_Start s) = TAUJ0_Start (TAUJ0_Stop s) := by
  have hTT : s.TT0 < U32_MOD := hs.2.2.2.1
  have hstop : (TAUJ0_Stop s).TT0 = s.TT0 ||| 1 := by
    simp only [TAUJ0_Stop, TT0_Msk_eq]
    exact wrap32_or_one _ hTT
  have hinit : (TAUJ0_Init x s).TT0 = s.TT0 ||| 1 := by
    simp only [TAUJ0_Init, TAUJ0_SetInterval, TT0_Msk_eq]
    exact wrap32_or_one _ hTT
  refine ⟨hstop, hinit, ?_, rfl⟩
  intro i hi
  rw [hstop, hinit]
  exact ⟨testBit_or_one_of_ne_zero _ i hi, testBit_or_one_of_ne_zero _ i hi⟩

/-- C17 at a concrete register block: `TT0 = 0x80000002` becomes `0x80000003`
under `TAUJ0_Stop` and under `TAUJ0_Init 5`. -/
theorem C17_TT0_bits_and_commute_witness :
    TAUJ0_Regs_t.valid ⟨7, 0, 6, 0x80000002, 0, 0, 0, 0, 0, 0, 0x4001, 0⟩ ∧
      (TAUJ0_Stop ⟨7, 0, 6, 0x80000002, 0, 0, 0, 0, 0, 0, 0x4001, 0⟩).TT0
        = 0x80000002 ||| 1 ∧
      (TAUJ0_Init 5 ⟨7, 0, 6, 0x80000002, 0, 0, 0, 0, 0, 0, 0x4001, 0⟩).TT0
        = 0x80000002 ||| 1 ∧
      (0x80000002 ||| 1) = 0x80000003 :=
  ⟨by decide,
    (C17_TT0_bits_and_commute
      ⟨7, 0, 6, 0x80000002, 0, 0, 0, 0, 0, 0, 0x4001, 0⟩ 5 (by decide)).1,
    (C17_TT0_bits_and_commute
      ⟨7, 0, 6, 0x80000002, 0, 0, 0, 0, 0, 0, 0x4001, 0⟩ 5 (by decide)).2.1,
    by decide⟩

/-! ## Theorems: the busy-wait helper -/

/-- From a loop state with `i ≤ count`, fuel for more than `count - i` exit
tests lets the loop of `delay` finish: it leaves with `i = count`, after
`count - i` further runs of the body and with no further wrap of `i`. -/
theorem delay_loop_exits (count : Nat) (hc : count < U32_MOD) :
    ∀ (fuel : Nat) (σ : DelayState), σ.i ≤ count → count - σ.i < fuel →
      delay_loop count fuel σ =
        some { i := count, body_runs := σ.body_runs + (count - σ.i), wrapped := σ.wrapped } := by
  intro fuel
  induction fuel with
  | zero => intro σ _ h; omega
  | succ k ih =>
    intro σ hle hfuel
    by_cases hlt : σ.i < count
    · have hw : wrap32 (σ.i + 1) = σ.i + 1 := Nat.mod_eq_of_lt (by omega)
      have hnw : decide (U32_MOD ≤ σ.i + 1) = false := by
        rw [decide_eq_false_iff_not]
        omega
      rw [delay_loop, if_pos hlt, hw, hnw, Bool.or_false]
      rw [ih _ (by simpa using hlt) (by simp only; omega)]
      simp only [Option.some.injEq, DelayState.mk.injEq, and_true, true_and]
      omega
    · have hi : σ.i = count := by omega
      rw [delay_loop, if_neg hlt]
      cases σ
      simp_all

/-- From a loop state with `i ≤ count`, fuel for at most `count - i` exit
tests is not enough: the loop of `delay` is still running when it is spent. -/
theorem delay_loop_needs_fuel (count : Nat) (hc : count < U32_MOD) :
    ∀ (fuel : Nat) (σ : DelayState), σ.i ≤ count → fuel ≤ count - σ.i →
      delay_loop count fuel σ = none := by
  intro fuel
  induction fuel with
  | zero => intro σ _ _; rfl
  | succ k ih =>
    intro σ hle hfuel
    have hlt : σ.i < count := by omega
    have hw : wrap32 (σ.i + 1) = σ.i + 1 := Nat.mod_eq_of_lt (by omega)
    rw [delay_loop, if_pos hlt, hw]
    exact ih _ (by simpa using hlt) (by simp only; omega)

/-- C18: `delay count` always returns, for every `unsigned int` `count`, 0 and
the maximum included: with fuel for `count + 1` exit tests or more the loop
finishes, having run its body exactly `count` times, with `i = count` and
without `i` ever wrapping; with less fuel it is still running. -/
theorem C18_delay_terminates (count : Nat) (hc : count < 2 ^ 32) :
    (∀ fuel : Nat, count < fuel →
        delay fuel count = some { i := count, body_runs := count, wrapped := false }) ∧
      (∀ fuel : Nat, fuel ≤ count → delay fuel count = none) := by
  have hc' : count < U32_MOD := hc
  refine ⟨?_, ?_⟩
  · intro fuel hfuel
    have h := delay_loop_exits count hc' fuel { i := 0, body_runs := 0, wrapped := false }
      (Nat.zero_le _) (by simpa using hfuel)
    simpa [delay] using h
  · intro fuel hfuel
    exact delay_loop_needs_fuel count hc' fuel { i := 0, body_runs := 0, wrapped := false }
      (Nat.zero_le _) (by simpa using hfuel)

/-- C18 at the two ends of the range and at the count `main` passes: `delay 0`
returns at the first exit test, `delay 10000` after 10000 runs of the body,
and `delay 0xFFFFFFFF` after `0xFFFFFFFF` runs, none with a wrap of `i`. -/
theorem C18_delay_terminates_witness :
    0 < 2 ^ 32 ∧ 10000 < 2 ^ 32 ∧ 0xFFFFFFFF < 2 ^ 32 ∧
      delay 1 0 = some { i := 0, body_runs := 0, wrapped := false } ∧
      delay 10001 10000 = some { i := 10000, body_runs := 10000, wrapped := false } ∧
      delay 0x100000000 0xFFFFFFFF =
        some { i := 0xFFFFFFFF, body_runs := 0xFFFFFFFF, wrapped := false } :=
  ⟨by decide, by decide, by decide,
    (C18_delay_terminates 0 (by decide)).1 1 (by decide),
    (C18_delay_terminates 10000 (by decide)).1 10001 (by decide),
    (C18_delay_terminates 0xFFFFFFFF (by decide)).1 0x100000000 (by decide)⟩

end TAUJ0
